import Mathlib

/-!
Verification development for the escribano MLX bridge daemon
(scripts/mlx_bridge.py).

The file shallowly embeds the parts of the bridge that the specification
talks about: the two VLM output parsers (parse_vlm_response and
parse_interleaved_output, including a faithful model of the Python
regular-expression semantics they rely on), and the batch-streaming
request handler handle_describe_images together with the surrounding
try/except of handle_request.

The inference engine (mlx_vlm.generate) is external to the program and is
modelled as an oracle: a function from a batch of frames to either the
generated text plus its generation stats, or an exception message.
-/

namespace MlxBridge

/-! ## Python string helpers -/

/-- Whitespace characters recognised by Python str.strip and by the re
module's backslash-s class on ASCII text: space, tab, newline, carriage
return, vertical tab, form feed. -/
def pySpace (c : Char) : Bool :=
  c = ' ' || c = '\t' || c = '\n' || c = '\r' || c = '\x0b' || c = '\x0c'

/-- Python str.strip(): remove leading and trailing whitespace. -/
def pyStrip (cs : List Char) : List Char :=
  ((cs.dropWhile pySpace).reverse.dropWhile pySpace).reverse

/-- Python str.split on a comma separator: splits at every comma and keeps
empty pieces, so the empty string yields one empty piece. -/
def splitComma : List Char → List (List Char)
  | [] => [[]]
  | c :: rest =>
    if c = ',' then [] :: splitComma rest
    else
      match splitComma rest with
      | [] => [[c]]
      | g :: gs => (c :: g) :: gs

/-- First half of re.sub applied with pattern caret-openbracket-or-closebracket-dollar:
a literal open bracket can only match at position zero. -/
def subLeadBracket : List Char → List Char
  | '[' :: rest => rest
  | cs => cs

/-- Second half of the same re.sub: a close bracket matches when it sits at
the end of the string, or just before a single trailing newline (Python
dollar without MULTILINE also matches before a final newline). -/
def subTrailBracket (cs : List Char) : List Char :=
  (match cs.reverse with
    | ']' :: rest => rest
    | '\n' :: ']' :: rest => '\n' :: rest
    | r => r).reverse

/-- The combined re.sub removing one leading open bracket and one trailing
close bracket, as used on the apps and topics captures. The two matches
cannot overlap except on strings fully consumed by the first, so the
sequential composition equals the single left-to-right re.sub pass. -/
def stripBrackets (cs : List Char) : List Char :=
  subTrailBracket (subLeadBracket cs)

/-- The comma-list extraction shared by both parsers: strip the capture,
drop surrounding brackets, split on commas, strip each item and drop the
items that strip to nothing. -/
def extractItems (raw : List Char) : List String :=
  (((splitComma (stripBrackets (pyStrip raw))).map pyStrip).filter
    (fun g => !g.isEmpty)).map String.mk

/-! ## Python regular-expression semantics

Only the constructs appearing in the two bridge patterns are embedded:
literals, the whitespace class star, digit plus, the DOTALL lazy and
greedy dot plus, the not-a-pipe class plus, alternation, capture groups,
lookahead, and the end anchor. Matching follows Python's backtracking
order: alternatives left to right, greedy quantifiers longest first, lazy
quantifiers shortest first, search positions left to right. -/

inductive RE where
  | lit (s : List Char)
  | wsStar
  | digitPlus
  | anyLazyPlus
  | anyGreedyPlus
  | notPipePlus
  | seq (a b : RE)
  | alt (a b : RE)
  | grp (n : Nat) (r : RE)
  | look (r : RE)
  | eos
deriving Repr

/-- Captured groups: group number paired with the consumed characters. -/
abbrev Caps := List (Nat × List Char)

/-- Length of the longest prefix of cs whose characters satisfy p. -/
def maxRun (p : Char → Bool) : List Char → Nat
  | [] => 0
  | c :: rest => if p c then maxRun p rest + 1 else 0

/-- The list n, n-1, ..., 1. -/
def countdown : Nat → List Nat
  | 0 => []
  | n + 1 => (n + 1) :: countdown n

/-- Try consuming each count of characters from cs in the given priority
order, committing to the first count for which the continuation succeeds
(backtracking over quantifier lengths). -/
def tryCounts (cs : List Char) (k : List Char → Option Caps) : List Nat → Option Caps
  | [] => none
  | n :: rest =>
    match k (cs.drop n) with
    | some r => some r
    | none => tryCounts cs k rest

/-- Backtracking matcher in continuation-passing style. reExec r cs caps k
attempts to match r against a prefix of cs; on each way of matching, the
continuation k receives the remaining input and the captures so far, and
the first way for which k succeeds wins, mirroring Python's re engine. -/
def reExec : RE → List Char → Caps → (List Char → Caps → Option Caps) → Option Caps
  | .lit s, cs, caps, k =>
    if s.isPrefixOf cs then k (cs.drop s.length) caps else none
  | .wsStar, cs, caps, k =>
    tryCounts cs (fun cs2 => k cs2 caps) (countdown (maxRun pySpace cs) ++ [0])
  | .digitPlus, cs, caps, k =>
    tryCounts cs (fun cs2 => k cs2 caps) (countdown (maxRun Char.isDigit cs))
  | .anyLazyPlus, cs, caps, k =>
    tryCounts cs (fun cs2 => k cs2 caps)
      (countdown (maxRun (fun _ => true) cs)).reverse
  | .anyGreedyPlus, cs, caps, k =>
    tryCounts cs (fun cs2 => k cs2 caps) (countdown (maxRun (fun _ => true) cs))
  | .notPipePlus, cs, caps, k =>
    tryCounts cs (fun cs2 => k cs2 caps) (countdown (maxRun (fun c => c ≠ '|') cs))
  | .seq a b, cs, caps, k =>
    reExec a cs caps (fun cs2 caps2 => reExec b cs2 caps2 k)
  | .alt a b, cs, caps, k =>
    match reExec a cs caps k with
    | some r => some r
    | none => reExec b cs caps k
  | .grp n r, cs, caps, k =>
    reExec r cs caps
      (fun cs2 caps2 => k cs2 ((n, cs.take (cs.length - cs2.length)) :: caps2))
  | .look r, cs, caps, k =>
    match reExec r cs caps (fun _ c => some c) with
    | some _ => k cs caps
    | none => none
  | .eos, cs, caps, k =>
    match cs with
    | [] => k cs caps
    | [c] => if c = '\n' then k cs caps else none
    | _ => none

/-- re.match: attempt the pattern at position zero only, returning the
captures of the first (leftmost in backtracking order) match. -/
def reMatch (r : RE) (cs : List Char) : Option Caps :=
  reExec r cs [] (fun _ c => some c)

/-- re.search: attempt the pattern at every position from left to right,
returning the captures of the first position that matches. -/
def reSearch (r : RE) (cs : List Char) : Option Caps :=
  match reMatch r cs with
  | some c => some c
  | none =>
    match cs with
    | [] => none
    | _ :: rest => reSearch r rest

/-- Look up a numbered capture group (each group binds at most once per
successful match of the bridge patterns). -/
def capGet (caps : Caps) (n : Nat) : List Char :=
  ((caps.find? (fun p => p.1 = n)).map Prod.snd).getD []

/-- Right-nested sequencing of a pattern fragment list. -/
def reCat (l : List RE) : RE :=
  l.foldr RE.seq (RE.lit [])

/-! ## The two bridge patterns -/

/-- The interleaved multi-frame pattern of parse_interleaved_output for a
given one-based frame number n, searched with re.DOTALL:
literal Frame n colon, whitespace, the four labelled fields with lazy
free-text captures, and a lookahead ending the span at the next
Frame-digits-colon label or at end of text. -/
def interleavedPattern (n : Nat) : RE :=
  reCat [
    .lit ("Frame " ++ toString n ++ ":").data, .wsStar,
    .lit "description:".data, .wsStar, .grp 1 .anyLazyPlus, .wsStar,
    .lit "|".data, .wsStar,
    .lit "activity:".data, .wsStar, .grp 2 .anyLazyPlus, .wsStar,
    .lit "|".data, .wsStar,
    .lit "apps:".data, .wsStar,
    .grp 3 (.alt (reCat [.lit "[".data, .anyLazyPlus, .lit "]".data]) .notPipePlus),
    .wsStar, .lit "|".data, .wsStar,
    .lit "topics:".data, .wsStar, .grp 4 .anyLazyPlus,
    .look (.alt (reCat [.lit "Frame ".data, .digitPlus, .lit ":".data]) .eos)]

/-- The single-frame pattern of parse_vlm_response, applied with re.match
and re.DOTALL: the caret start anchor is absorbed by matching at position
zero; the final greedy capture runs to the end anchor. -/
def vlmPattern : RE :=
  reCat [
    .lit "description:".data, .wsStar, .grp 1 .anyLazyPlus, .wsStar,
    .lit "|".data, .wsStar,
    .lit "activity:".data, .wsStar, .grp 2 .anyLazyPlus, .wsStar,
    .lit "|".data, .wsStar,
    .lit "apps:".data, .wsStar,
    .grp 3 (.alt (reCat [.lit "[".data, .anyLazyPlus, .lit "]".data]) .notPipePlus),
    .wsStar, .lit "|".data, .wsStar,
    .lit "topics:".data, .wsStar, .grp 4 .anyGreedyPlus, .eos]

/-! ## Data model -/

/-- One requested frame, as the images entries of a describe_images
request: an optional explicit index, a timestamp and an image path. The
timestamp is a JSON number carried through the bridge unchanged; it is
modelled as an integer since the bridge never computes with it. -/
structure Frame where
  index : Option Int
  timestamp : Int
  imagePath : String
deriving DecidableEq, Repr

/-- One per-frame record produced by parse_interleaved_output. The
raw_response field is present exactly on parse failure. -/
structure FrameResult where
  index : Int
  timestamp : Int
  imagePath : String
  description : String
  activity : String
  apps : List String
  topics : List String
  raw_response : Option String
deriving DecidableEq, Repr

/-- The record produced by parse_vlm_response. Its apps and topics go
through a Python set, which deduplicates and forgets order, hence Finset. -/
structure VlmParsed where
  description : String
  activity : String
  apps : Finset String
  topics : Finset String

/-- Per-batch generation stats. The bridge copies token counts and
wall-clock timings out of the inference result and never inspects them
again; only the token counters are retained here, the timing and memory
numbers being external measurements with no influence on control flow. -/
structure GenStats where
  prompt_tokens : Nat
  generation_tokens : Nat
deriving DecidableEq, Repr

/-- Outcome of one inference call on a batch: the generated text with its
stats, or a raised exception rendered as its message string. -/
inductive BatchOutcome where
  | ok (text : String) (stats : GenStats)
  | exn (msg : String)

/-- The progress object attached to every per-batch response. -/
structure Progress where
  current : Nat
  total : Nat
deriving DecidableEq, Repr

/-- One NDJSON response line. Each field is optional, mirroring the JSON
dictionaries built at the various send_response call sites; partialFlag
models the JSON key named partial. -/
structure Response where
  id : Option Int
  batch : Option Nat
  results : Option (List FrameResult)
  stats : Option GenStats
  partialFlag : Option Bool
  progress : Option Progress
  error : Option String
  done : Option Bool
deriving DecidableEq, Repr

/-- The successful per-batch response of handle_describe_images. -/
def Response.mkBatchOk (rid : Int) (bn : Nat) (rs : List FrameResult)
    (st : GenStats) (pf : Bool) (pr : Progress) : Response :=
  ⟨some rid, some bn, some rs, some st, some pf, some pr, none, none⟩

/-- The per-batch response on the exception branch: error in place of
results and stats, with partial and progress preserved. -/
def Response.mkBatchErr (rid : Int) (bn : Nat) (msg : String)
    (pf : Bool) (pr : Progress) : Response :=
  ⟨some rid, some bn, none, none, some pf, some pr, some msg, none⟩

/-- The terminal done response of a describe_images request. -/
def Response.mkDone (rid : Int) : Response :=
  ⟨some rid, none, none, none, none, none, none, some true⟩

/-- The single response sent for an empty images list. -/
def Response.mkErrorDone (rid : Int) (msg : String) : Response :=
  ⟨some rid, none, none, none, none, none, some msg, some true⟩

/-- The bare error response of handle_request's generic exception handler:
no id, no done marker. -/
def Response.mkBareError (msg : String) : Response :=
  ⟨none, none, none, none, none, none, some msg, none⟩

/-! ## The parsers -/

/-- parse_vlm_response: the single-frame parser. Empty input or input
whose strip starts with the literal Error: yields the defaults; a match of
the single-frame pattern at position zero yields the four stripped fields
with apps and topics deduplicated through a set; otherwise the whole
stripped text becomes the description. -/
def parse_vlm_response (content : List Char) : VlmParsed :=
  if content = [] || "Error:".data.isPrefixOf (pyStrip content) then
    ⟨"", "unknown", ∅, ∅⟩
  else
    match reMatch vlmPattern content with
    | some caps =>
      ⟨String.mk (pyStrip (capGet caps 1)), String.mk (pyStrip (capGet caps 2)),
       (extractItems (capGet caps 3)).toFinset,
       (extractItems (capGet caps 4)).toFinset⟩
    | none => ⟨String.mk (pyStrip content), "unknown", ∅, ∅⟩

/-- The body of parse_interleaved_output's loop for one frame: search the
entire batch text for this frame's pattern; on a match build the record
from the stripped captures, on no match build the placeholder carrying the
full batch text. Both branches take the record's index from the frame's
explicit index field, defaulting to the one-based frame number minus one. -/
def parseFrameAt (text : List Char) (frame_num : Nat) (frame : Frame) : FrameResult :=
  match reSearch (interleavedPattern frame_num) text with
  | some caps =>
    ⟨frame.index.getD ((frame_num - 1 : Nat) : Int), frame.timestamp, frame.imagePath,
     String.mk (pyStrip (capGet caps 1)), String.mk (pyStrip (capGet caps 2)),
     extractItems (capGet caps 3), extractItems (capGet caps 4), none⟩
  | none =>
    ⟨frame.index.getD ((frame_num - 1 : Nat) : Int), frame.timestamp, frame.imagePath,
     "Failed to parse Frame " ++ toString frame_num, "unknown", [], [],
     some (String.mk text)⟩

/-- The loop of parse_interleaved_output, with n the one-based frame
number of the head of the remaining batch. -/
def parseLoop (text : List Char) (n : Nat) : List Frame → List FrameResult
  | [] => []
  | f :: rest => parseFrameAt text n f :: parseLoop text (n + 1) rest

/-- parse_interleaved_output: one record per batch frame, frame numbers
counted from one. -/
def parse_interleaved_output (text : List Char) (batch : List Frame) : List FrameResult :=
  parseLoop text 1 batch

/-! ## The request handler -/

/-- The response sent for the batch starting at batch_idx: the batch is
the slice of bsize images from batch_idx, the batch number is
batch_idx div bsize plus one, partial is whether a further batch follows,
and progress counts the frames up to and including this batch. On a
successful generation the results come from parse_interleaved_output on
the generated text; on an exception the error message replaces results
and stats. -/
def batchResponse (gen : List Frame → BatchOutcome) (images : List Frame)
    (bsize : Nat) (rid : Int) (batch_idx : Nat) : Response :=
  let batch := (images.drop batch_idx).take bsize
  let bn := batch_idx / bsize + 1
  let pf := decide (batch_idx + bsize < images.length)
  let pr : Progress := ⟨batch_idx + batch.length, images.length⟩
  match gen batch with
  | .ok text st =>
    Response.mkBatchOk rid bn (parse_interleaved_output text.data batch) st pf pr
  | .exn msg => Response.mkBatchErr rid bn msg pf pr

/-- The for-loop over range(0, total, batch_size) of
handle_describe_images. The loop is only entered with a positive step
(a zero step raises ValueError before the loop, a negative step gives an
empty range); the positivity conjunct in the guard makes the recursion
well founded and holds at every call site. -/
def batchLoop (gen : List Frame → BatchOutcome) (images : List Frame)
    (bsize : Nat) (rid : Int) (batch_idx : Nat) : List Response :=
  if h : 0 < bsize ∧ batch_idx < images.length then
    batchResponse gen images bsize rid batch_idx ::
      batchLoop gen images bsize rid (batch_idx + bsize)
  else []
termination_by images.length - batch_idx
decreasing_by omega

/-- handle_describe_images. An empty images list short-circuits to the
error-plus-done response. Otherwise the Python for-loop over
range(0, total, batch_size) runs: a zero step makes range raise
ValueError (escaping the handler, modelled as the error case of Except),
a negative step yields an empty range, and a positive step streams one
response per batch; the terminal done response follows the loop. -/
def handle_describe_images (gen : List Frame → BatchOutcome) (images : List Frame)
    (batch_size : Int) (request_id : Int) : Except String (List Response) :=
  if images.length = 0 then
    Except.ok [Response.mkErrorDone request_id "No images provided"]
  else if batch_size = 0 then
    Except.error "range() arg 3 must not be zero"
  else if batch_size < 0 then
    Except.ok [Response.mkDone request_id]
  else
    Except.ok (batchLoop gen images batch_size.toNat request_id 0 ++
      [Response.mkDone request_id])

/-- The describe_images path of handle_request: the params batchSize with
its environment default, and the surrounding try/except that converts an
escaped exception into a single bare error response. -/
def handle_request_describe (gen : List Frame → BatchOutcome) (images : List Frame)
    (batchSize : Option Int) (default_batch_size : Int) (request_id : Int) :
    List Response :=
  match handle_describe_images gen images (batchSize.getD default_batch_size) request_id with
  | .ok rs => rs
  | .error msg => [Response.mkBareError msg]

/-! ## Concrete fixtures used by witnesses and counterexamples -/

/-- A frame with no explicit index field. -/
def wFrame (t : Int) : Frame := ⟨none, t, "img"⟩

/-- A five-frame request, frames identified by timestamp. -/
def wImgs5 : List Frame := [wFrame 0, wFrame 1, wFrame 2, wFrame 3, wFrame 4]

/-- A three-frame request with no explicit index fields. -/
def wImgs3 : List Frame := [wFrame 0, wFrame 1, wFrame 2]

/-- An oracle whose generation always succeeds with the given text. -/
def genText (t : String) : List Frame → BatchOutcome :=
  fun _ => BatchOutcome.ok t ⟨0, 0⟩

/-- An oracle whose generation always raises. -/
def genBoom : List Frame → BatchOutcome :=
  fun _ => BatchOutcome.exn "boom"

/-- A batch text containing a well-formed entry for frames one and three
but a malformed entry for frame two. -/
def wText3 : String :=
  "Frame 1: description: d1 | activity: a1 | apps: [x] | topics: t1\nFrame 2: garbage\nFrame 3: description: d3 | activity: a3 | apps: y | topics: t3a, t3b"

/-- A batch text in the single-frame shape: the four fields without any
Frame label prefix. -/
def wTextBare : String := "description: a | activity: b | apps: [c] | topics: d"

/-! ## General lemmas -/

theorem parseLoop_length (text : List Char) :
    ∀ (n : Nat) (batch : List Frame), (parseLoop text n batch).length = batch.length := by
  intro n batch
  induction batch generalizing n with
  | nil => rfl
  | cons f rest ih => simp [parseLoop, ih]

theorem parseLoop_getElem? (text : List Char) :
    ∀ (batch : List Frame) (n k : Nat),
      (parseLoop text n batch)[k]? = (batch[k]?).map (fun f => parseFrameAt text (n + k) f) := by
  intro batch
  induction batch with
  | nil => intro n k; simp [parseLoop]
  | cons f rest ih =>
    intro n k
    cases k with
    | zero => simp [parseLoop]
    | succ k =>
      simp only [parseLoop, List.getElem?_cons_succ]
      rw [ih (n + 1) k]
      have h1 : n + 1 + k = n + (k + 1) := by omega
      rw [h1]

theorem parse_interleaved_length (text : List Char) (batch : List Frame) :
    (parse_interleaved_output text batch).length = batch.length :=
  parseLoop_length text 1 batch

theorem parse_interleaved_getElem? (text : List Char) (batch : List Frame) (k : Nat) :
    (parse_interleaved_output text batch)[k]? =
      (batch[k]?).map (fun f => parseFrameAt text (k + 1) f) := by
  unfold parse_interleaved_output
  rw [parseLoop_getElem?, Nat.add_comm]

theorem batchResponse_done (gen : List Frame → BatchOutcome) (images : List Frame)
    (bsize : Nat) (rid : Int) (batch_idx : Nat) :
    (batchResponse gen images bsize rid batch_idx).done = none := by
  cases h : gen ((images.drop batch_idx).take bsize) <;>
    simp [batchResponse, h, Response.mkBatchOk, Response.mkBatchErr]

theorem batchResponse_partialFlag (gen : List Frame → BatchOutcome) (images : List Frame)
    (bsize : Nat) (rid : Int) (batch_idx : Nat) :
    (batchResponse gen images bsize rid batch_idx).partialFlag =
      some (decide (batch_idx + bsize < images.length)) := by
  cases h : gen ((images.drop batch_idx).take bsize) <;>
    simp [batchResponse, h, Response.mkBatchOk, Response.mkBatchErr]

theorem batchResponse_progress (gen : List Frame → BatchOutcome) (images : List Frame)
    (bsize : Nat) (rid : Int) (batch_idx : Nat) :
    (batchResponse gen images bsize rid batch_idx).progress =
      some ⟨batch_idx + ((images.drop batch_idx).take bsize).length, images.length⟩ := by
  cases h : gen ((images.drop batch_idx).take bsize) <;>
    simp [batchResponse, h, Response.mkBatchOk, Response.mkBatchErr]

theorem ceil_step (B a : Nat) (hB : 0 < B) (ha : 0 < a) :
    (a - B + B - 1) / B + 1 = (a + B - 1) / B := by
  have h1 : a + B - 1 = (a - 1) + B := by omega
  rw [h1, Nat.add_div_right _ hB]
  rcases Nat.lt_or_ge a (B + 1) with h | h
  · have h2 : a - B + B - 1 = B - 1 := by omega
    rw [h2, Nat.div_eq_of_lt (by omega), Nat.div_eq_of_lt (by omega)]
  · have h3 : a - B + B - 1 = (a - 1) := by omega
    rw [h3]

theorem batchLoop_length (gen : List Frame → BatchOutcome) (imgs : List Frame)
    (B : Nat) (rid : Int) (hB : 0 < B) :
    ∀ (m idx : Nat), imgs.length ≤ idx + m →
      (batchLoop gen imgs B rid idx).length = (imgs.length - idx + B - 1) / B := by
  intro m
  induction m with
  | zero =>
    intro idx h
    have h2 : imgs.length - idx = 0 := by omega
    rw [batchLoop, dif_neg (by omega), h2]
    simp only [List.length_nil, Nat.zero_add]
    exact (Nat.div_eq_of_lt (by omega)).symm
  | succ m ih =>
    intro idx h
    by_cases hc : idx < imgs.length
    · rw [batchLoop, dif_pos ⟨hB, hc⟩]
      simp only [List.length_cons]
      rw [ih (idx + B) (by omega)]
      have h4 : imgs.length - (idx + B) = imgs.length - idx - B := by omega
      rw [h4]
      exact ceil_step B (imgs.length - idx) hB (by omega)
    · have h2 : imgs.length - idx = 0 := by omega
      rw [batchLoop, dif_neg (by omega), h2]
      simp only [List.length_nil, Nat.zero_add]
      exact (Nat.div_eq_of_lt (by omega)).symm

theorem batchLoop_getElem? (gen : List Frame → BatchOutcome) (imgs : List Frame)
    (B : Nat) (rid : Int) (hB : 0 < B) :
    ∀ (k idx : Nat), (batchLoop gen imgs B rid idx)[k]? =
      if idx + k * B < imgs.length then
        some (batchResponse gen imgs B rid (idx + k * B))
      else none := by
  intro k
  induction k with
  | zero =>
    intro idx
    simp only [Nat.zero_mul, Nat.add_zero]
    rw [batchLoop]
    by_cases hc : idx < imgs.length
    · rw [dif_pos ⟨hB, hc⟩, if_pos hc]
      exact List.getElem?_cons_zero
    · rw [dif_neg (by omega), if_neg hc]
      rfl
  | succ k ih =>
    intro idx
    rw [batchLoop]
    by_cases hc : idx < imgs.length
    · rw [dif_pos ⟨hB, hc⟩]
      simp only [List.getElem?_cons_succ]
      rw [ih (idx + B)]
      have h3 : idx + B + k * B = idx + (k + 1) * B := by ring
      rw [h3]
    · have h2 : imgs.length ≤ idx + (k + 1) * B :=
        le_trans (by omega) (Nat.le_add_right idx ((k + 1) * B))
      rw [dif_neg (by omega), if_neg (Nat.not_lt.mpr h2)]
      rfl

theorem batchLoop_done_none (gen : List Frame → BatchOutcome) (imgs : List Frame)
    (B : Nat) (rid : Int) :
    ∀ (m idx : Nat), imgs.length ≤ idx + m →
      ∀ r ∈ batchLoop gen imgs B rid idx, r.done = none := by
  intro m
  induction m with
  | zero =>
    intro idx h r hr
    rw [batchLoop, dif_neg (by omega)] at hr
    simp at hr
  | succ m ih =>
    intro idx h r hr
    by_cases hc : 0 < B ∧ idx < imgs.length
    · rw [batchLoop, dif_pos hc] at hr
      rcases List.mem_cons.mp hr with h1 | h1
      · rw [h1]; exact batchResponse_done gen imgs B rid idx
      · exact ih (idx + B) (by omega) r h1
    · rw [batchLoop, dif_neg hc] at hr
      simp at hr

theorem mul_lt_iff_lt_ceil (B k N : Nat) (hB : 0 < B) :
    k * B < N ↔ k < (N + B - 1) / B := by
  have hkB : (k + 1) * B = k * B + B := by ring
  constructor
  · intro h
    have h1 : k + 1 ≤ (N + B - 1) / B := by
      rw [Nat.le_div_iff_mul_le hB, hkB]
      omega
    omega
  · intro h
    have h1 : (k + 1) * B ≤ N + B - 1 :=
      (Nat.le_div_iff_mul_le hB).mp (by omega : k + 1 ≤ (N + B - 1) / B)
    rw [hkB] at h1
    omega

theorem handle_pos (gen : List Frame → BatchOutcome) (imgs : List Frame)
    (B : Nat) (rid : Int) (hB : 0 < B) (hN : imgs ≠ []) :
    handle_describe_images gen imgs (B : Int) rid =
      Except.ok (batchLoop gen imgs B rid 0 ++ [Response.mkDone rid]) := by
  unfold handle_describe_images
  rw [if_neg (by simp [List.length_eq_zero]; exact hN),
    if_neg (by exact_mod_cast Nat.pos_iff_ne_zero.mp hB),
    if_neg (by omega), Int.toNat_natCast]

/-- One unfolding step of the batch loop while frames remain. -/
theorem batchLoop_step (gen : List Frame → BatchOutcome) (imgs : List Frame)
    (B : Nat) (rid : Int) (idx : Nat) (h : 0 < B ∧ idx < imgs.length) :
    batchLoop gen imgs B rid idx =
      batchResponse gen imgs B rid idx :: batchLoop gen imgs B rid (idx + B) := by
  rw [batchLoop, dif_pos h]

/-- The batch loop stops once the start index reaches the frame count. -/
theorem batchLoop_stop (gen : List Frame → BatchOutcome) (imgs : List Frame)
    (B : Nat) (rid : Int) (idx : Nat) (h : imgs.length ≤ idx) :
    batchLoop gen imgs B rid idx = [] := by
  rw [batchLoop, dif_neg (by omega)]


/-- Both branches of parseFrameAt take the record index from the frame's
explicit index field, defaulting to the one-based frame number minus one. -/
theorem parseFrameAt_index (text : List Char) (n : Nat) (f : Frame) :
    (parseFrameAt text n f).index = f.index.getD ((n - 1 : Nat) : Int) := by
  unfold parseFrameAt
  split <;> rfl

/-! ## The claims -/

/-- Claim C9: a describe_images request with an empty images list gets
exactly one response, the literal id-error-done record with message
No images provided, and the handler returns without ever consulting the
inference oracle (the right-hand side does not depend on gen). -/
theorem c9_empty_images (gen : List Frame → BatchOutcome) (B : Int) (rid : Int) :
    handle_describe_images gen [] B rid =
      Except.ok [Response.mkErrorDone rid "No images provided"] := rfl

/-- Claim C10: with a non-empty images list and a supplied batchSize of
zero, the range call raises ValueError before any batch runs, so the
handler produces no responses and the exception escapes; handle_request's
generic except clause then sends exactly one response carrying only the
error field, with no id and no done flag, so no done:true response exists
for the request. -/
theorem c10_zero_batch_size (gen : List Frame → BatchOutcome) (imgs : List Frame)
    (dbs rid : Int) (hne : imgs ≠ []) :
    handle_describe_images gen imgs 0 rid =
      Except.error "range() arg 3 must not be zero"
    ∧ handle_request_describe gen imgs (some 0) dbs rid =
        [Response.mkBareError "range() arg 3 must not be zero"]
    ∧ (Response.mkBareError "range() arg 3 must not be zero").id = none
    ∧ (Response.mkBareError "range() arg 3 must not be zero").done = none
    ∧ (handle_request_describe gen imgs (some 0) dbs rid).countP
        (fun r => decide (r.done = some true)) = 0 := by
  have h1 : handle_describe_images gen imgs 0 rid =
      Except.error "range() arg 3 must not be zero" := by
    unfold handle_describe_images
    rw [if_neg (by simp [List.length_eq_zero]; exact hne), if_pos rfl]
  have h2 : handle_request_describe gen imgs (some 0) dbs rid =
      [Response.mkBareError "range() arg 3 must not be zero"] := by
    unfold handle_request_describe
    rw [show (some (0 : Int)).getD dbs = 0 from rfl, h1]
  refine ⟨h1, h2, rfl, rfl, ?_⟩
  rw [h2]
  rfl

/-- Witness for C10 at a concrete one-frame request. -/
theorem c10_zero_batch_size_witness :
    ([wFrame 0] : List Frame) ≠ []
    ∧ (handle_describe_images genBoom [wFrame 0] 0 3 =
        Except.error "range() arg 3 must not be zero"
      ∧ handle_request_describe genBoom [wFrame 0] (some 0) 4 3 =
          [Response.mkBareError "range() arg 3 must not be zero"]
      ∧ (Response.mkBareError "range() arg 3 must not be zero").id = none
      ∧ (Response.mkBareError "range() arg 3 must not be zero").done = none
      ∧ (handle_request_describe genBoom [wFrame 0] (some 0) 4 3).countP
          (fun r => decide (r.done = some true)) = 0) :=
  ⟨by decide, c10_zero_batch_size genBoom [wFrame 0] 4 3 (by decide)⟩

/-- Claim C3: whenever the multi-frame parser finds no match for the
pattern of one-based frame number k plus one anywhere in the batch text,
the record emitted at position k is the placeholder: description
Failed to parse Frame followed by the frame number, activity unknown,
empty apps and topics, and raw_response equal to the full batch text; and
the parser, a total function, returns one record per batch frame on every
input. -/
theorem c3_parse_failure_placeholder (text : List Char) (batch : List Frame) (k : Nat)
    (hk : k < batch.length)
    (hm : reSearch (interleavedPattern (k + 1)) text = none) :
    (parse_interleaved_output text batch).length = batch.length
    ∧ (parse_interleaved_output text batch)[k]? = some
        ⟨(batch[k]).index.getD (k : Int), (batch[k]).timestamp, (batch[k]).imagePath,
         "Failed to parse Frame " ++ toString (k + 1), "unknown", [], [],
         some (String.mk text)⟩ := by
  refine ⟨parse_interleaved_length text batch, ?_⟩
  rw [parse_interleaved_getElem?, List.getElem?_eq_getElem hk]
  simp only [Option.map_some']
  unfold parseFrameAt
  rw [hm]
  rfl

/-- Witness for C3: the empty batch text matches no frame pattern. -/
theorem c3_parse_failure_placeholder_witness :
    0 < ([wFrame 5] : List Frame).length
    ∧ reSearch (interleavedPattern 1) [] = none
    ∧ ((parse_interleaved_output [] [wFrame 5]).length = ([wFrame 5] : List Frame).length
      ∧ (parse_interleaved_output [] [wFrame 5])[0]? = some
          ⟨0, 5, "img", "Failed to parse Frame 1", "unknown", [], [], some ""⟩) :=
  ⟨by decide, by decide,
    c3_parse_failure_placeholder [] [wFrame 5] 0 (by decide) (by decide)⟩

set_option maxRecDepth 400000 in
/-- Claim C7: the record at position k of the multi-frame parse depends
only on the full batch text, the frame number and that frame's own data —
each frame is searched for independently over the entire text — and, on a
concrete text whose frame two entry is malformed, frames one and three
still parse, frame one's topics span stopping at the Frame 2 label and
frame three's running to the end of the text. -/
theorem c7_independent_frame_search :
    (∀ (text : List Char) (batch : List Frame) (k : Nat) (hk : k < batch.length),
      (parse_interleaved_output text batch)[k]? =
        some (parseFrameAt text (k + 1) (batch[k])))
    ∧ (parse_interleaved_output wText3.data [wFrame 0, wFrame 1, wFrame 2]).map
        FrameResult.description = ["d1", "Failed to parse Frame 2", "d3"]
    ∧ (parse_interleaved_output wText3.data [wFrame 0, wFrame 1, wFrame 2]).map
        FrameResult.activity = ["a1", "unknown", "a3"]
    ∧ (parse_interleaved_output wText3.data [wFrame 0, wFrame 1, wFrame 2]).map
        FrameResult.apps = [["x"], [], ["y"]]
    ∧ (parse_interleaved_output wText3.data [wFrame 0, wFrame 1, wFrame 2]).map
        FrameResult.topics = [["t1"], [], ["t3a", "t3b"]] := by
  refine ⟨?_, by decide, by decide, by decide, by decide⟩
  intro text batch k hk
  rw [parse_interleaved_getElem?, List.getElem?_eq_getElem hk]
  rfl

/-- Witness for C7's universally quantified part at a concrete input. -/
theorem c7_independent_frame_search_witness :
    0 < ([wFrame 5] : List Frame).length
    ∧ (parse_interleaved_output [] [wFrame 5])[0]? =
        some (parseFrameAt [] 1 (([wFrame 5] : List Frame)[0])) :=
  ⟨by decide, c7_independent_frame_search.1 [] [wFrame 5] 0 (by decide)⟩

/-- Claim C1: for a non-empty request and positive batch size B, the
handler emits the batch-loop responses followed by the single terminal
done response; the loop emits exactly the ceiling of N over B per-batch
responses, the k-th being the response for the batch starting at k times
B; and the k-th batch is the slice of the images list covering positions
k times B up to the minimum of (k plus one) times B and N — the slices
have exactly those lengths and elements, so they partition the list with
no overlap and no gap. -/
theorem c1_batch_partition (gen : List Frame → BatchOutcome) (imgs : List Frame)
    (B : Nat) (rid : Int) (hB : 0 < B) (hN : 0 < imgs.length) :
    handle_describe_images gen imgs (B : Int) rid =
      Except.ok (batchLoop gen imgs B rid 0 ++ [Response.mkDone rid])
    ∧ (batchLoop gen imgs B rid 0).length = (imgs.length + B - 1) / B
    ∧ (∀ k, k < (imgs.length + B - 1) / B →
        (batchLoop gen imgs B rid 0)[k]? = some (batchResponse gen imgs B rid (k * B)))
    ∧ (∀ k, ((imgs.drop (k * B)).take B).length = min ((k + 1) * B) imgs.length - k * B)
    ∧ (∀ k j, j < B → ((imgs.drop (k * B)).take B)[j]? = imgs[k * B + j]?) := by
  refine ⟨handle_pos gen imgs B rid hB (List.length_pos.mp hN), ?_, ?_, ?_, ?_⟩
  · have h1 := batchLoop_length gen imgs B rid hB imgs.length 0 (by omega)
    simpa using h1
  · intro k hk
    have hcond : k * B < imgs.length := (mul_lt_iff_lt_ceil B k imgs.length hB).mpr hk
    rw [batchLoop_getElem? gen imgs B rid hB k 0]
    simp only [Nat.zero_add]
    rw [if_pos hcond]
  · intro k
    rw [List.length_take, List.length_drop]
    have h1 : (k + 1) * B = k * B + B := by ring
    rw [h1]
    generalize k * B = x
    omega
  · intro k j hj
    rw [List.getElem?_take, if_pos hj, List.getElem?_drop]

/-- Witness for C1: five frames in batches of two. -/
theorem c1_batch_partition_witness :
    0 < 2 ∧ 0 < wImgs5.length
    ∧ (handle_describe_images genBoom wImgs5 ((2 : Nat) : Int) 0 =
        Except.ok (batchLoop genBoom wImgs5 2 0 0 ++ [Response.mkDone 0])
      ∧ (batchLoop genBoom wImgs5 2 0 0).length = (wImgs5.length + 2 - 1) / 2
      ∧ (∀ k, k < (wImgs5.length + 2 - 1) / 2 →
          (batchLoop genBoom wImgs5 2 0 0)[k]? = some (batchResponse genBoom wImgs5 2 0 (k * 2)))
      ∧ (∀ k, ((wImgs5.drop (k * 2)).take 2).length = min ((k + 1) * 2) wImgs5.length - k * 2)
      ∧ (∀ k j, j < 2 → ((wImgs5.drop (k * 2)).take 2)[j]? = wImgs5[k * 2 + j]?)) :=
  ⟨by decide, by decide, c1_batch_partition genBoom wImgs5 2 0 (by decide) (by decide)⟩

/-- Claim C6: the k-th per-batch response carries partial true exactly
when a later batch exists, that is when k plus one is still below the
batch count; the last batch's response carries partial false. The oracle
gen is universally quantified, so the equation covers the error branch as
well as the success branch. -/
theorem c6_partial_flag_last_batch (gen : List Frame → BatchOutcome) (imgs : List Frame)
    (B : Nat) (rid : Int) (hB : 0 < B) (hN : 0 < imgs.length) :
    ∀ k, k < (imgs.length + B - 1) / B →
      ((batchLoop gen imgs B rid 0)[k]?.map Response.partialFlag) =
        some (some (decide (k + 1 < (imgs.length + B - 1) / B))) := by
  intro k hk
  have hcond : k * B < imgs.length := (mul_lt_iff_lt_ceil B k imgs.length hB).mpr hk
  rw [batchLoop_getElem? gen imgs B rid hB k 0]
  simp only [Nat.zero_add]
  rw [if_pos hcond]
  simp only [Option.map_some']
  rw [batchResponse_partialFlag]
  have hiff : (k * B + B < imgs.length) ↔ (k + 1 < (imgs.length + B - 1) / B) := by
    have h1 := mul_lt_iff_lt_ceil B (k + 1) imgs.length hB
    have h2 : (k + 1) * B = k * B + B := by ring
    rw [h2] at h1
    exact h1
  rw [decide_eq_decide.mpr hiff]

/-- Witness for C6: five frames in batches of two, all-error oracle. -/
theorem c6_partial_flag_last_batch_witness :
    0 < 2 ∧ 0 < wImgs5.length
    ∧ (∀ k, k < (wImgs5.length + 2 - 1) / 2 →
        ((batchLoop genBoom wImgs5 2 0 0)[k]?.map Response.partialFlag) =
          some (some (decide (k + 1 < (wImgs5.length + 2 - 1) / 2)))) :=
  ⟨by decide, by decide, c6_partial_flag_last_batch genBoom wImgs5 2 0 (by decide) (by decide)⟩

/-- Claim C8: the k-th per-batch response carries progress with total
equal to the frame count N and current equal to the minimum of
(k plus one) times B and N; that value equals the cumulative length of the
slices processed so far, is monotone in k, and equals N for the last
batch. -/
theorem c8_progress_cumulative (gen : List Frame → BatchOutcome) (imgs : List Frame)
    (B : Nat) (rid : Int) (hB : 0 < B) (hN : 0 < imgs.length) :
    (∀ k, k < (imgs.length + B - 1) / B →
      ((batchLoop gen imgs B rid 0)[k]?.map Response.progress) =
        some (some ⟨min ((k + 1) * B) imgs.length, imgs.length⟩))
    ∧ (∀ k, min ((k + 1) * B) imgs.length =
        (((List.range (k + 1)).map (fun j => ((imgs.drop (j * B)).take B).length)).sum))
    ∧ (∀ k k2, k ≤ k2 → min ((k + 1) * B) imgs.length ≤ min ((k2 + 1) * B) imgs.length)
    ∧ min (((imgs.length + B - 1) / B) * B) imgs.length = imgs.length := by
  refine ⟨?_, ?_, ?_, ?_⟩
  · intro k hk
    have hcond : k * B < imgs.length := (mul_lt_iff_lt_ceil B k imgs.length hB).mpr hk
    rw [batchLoop_getElem? gen imgs B rid hB k 0]
    simp only [Nat.zero_add]
    rw [if_pos hcond]
    simp only [Option.map_some']
    rw [batchResponse_progress]
    have hcur : k * B + ((imgs.drop (k * B)).take B).length =
        min ((k + 1) * B) imgs.length := by
      rw [List.length_take, List.length_drop,
        show (k + 1) * B = k * B + B from by ring]
      omega
    rw [hcur]
  · intro k
    induction k with
    | zero =>
      rw [show List.range 1 = [0] from rfl]
      simp only [List.map_cons, List.map_nil, List.sum_cons, List.sum_nil,
        Nat.zero_mul, List.drop_zero, Nat.add_zero]
      rw [List.length_take]
      omega
    | succ k ih =>
      rw [List.range_succ, List.map_append, List.sum_append, ← ih]
      simp only [List.map_cons, List.map_nil, List.sum_cons, List.sum_nil, Nat.add_zero]
      rw [List.length_take, List.length_drop,
        show (k + 1 + 1) * B = k * B + B + B from by ring,
        show (k + 1) * B = k * B + B from by ring]
      omega
  · intro k k2 hk
    have h1 : (k + 1) * B ≤ (k2 + 1) * B := Nat.mul_le_mul_right B (by omega)
    omega
  · have h1 := mul_lt_iff_lt_ceil B ((imgs.length + B - 1) / B) imgs.length hB
    have h2 : ¬((imgs.length + B - 1) / B * B < imgs.length) :=
      fun hlt => absurd (h1.mp hlt) (lt_irrefl _)
    omega

/-- Witness for C8: five frames in batches of two, all-error oracle. -/
theorem c8_progress_cumulative_witness :
    0 < 2 ∧ 0 < wImgs5.length
    ∧ ((∀ k, k < (wImgs5.length + 2 - 1) / 2 →
        ((batchLoop genBoom wImgs5 2 0 0)[k]?.map Response.progress) =
          some (some ⟨min ((k + 1) * 2) wImgs5.length, wImgs5.length⟩))
      ∧ (∀ k, min ((k + 1) * 2) wImgs5.length =
          (((List.range (k + 1)).map (fun j => ((wImgs5.drop (j * 2)).take 2).length)).sum))
      ∧ (∀ k k2, k ≤ k2 → min ((k + 1) * 2) wImgs5.length ≤ min ((k2 + 1) * 2) wImgs5.length)
      ∧ min (((wImgs5.length + 2 - 1) / 2) * 2) wImgs5.length = wImgs5.length) :=
  ⟨by decide, by decide, c8_progress_cumulative genBoom wImgs5 2 0 (by decide) (by decide)⟩

/-- Claim C2: for a non-empty request and positive batch size, the handler
yields the loop responses plus the terminal done response whatever the
per-batch outcomes: the response count is the batch count plus one, a
batch whose generation raised yields the error-shaped response (error in
place of results and stats, partial and progress preserved) at its
position while the other batches' responses are still present, and
exactly one response of the request carries done true — also when every
batch raised, since the oracle gen is arbitrary. -/
theorem c2_batch_error_isolation (gen : List Frame → BatchOutcome) (imgs : List Frame)
    (B : Nat) (rid : Int) (hB : 0 < B) (hN : imgs ≠ []) :
    ∃ rs, handle_describe_images gen imgs (B : Int) rid = Except.ok rs
    ∧ rs.length = (imgs.length + B - 1) / B + 1
    ∧ (∀ k msg, k < (imgs.length + B - 1) / B →
        gen ((imgs.drop (k * B)).take B) = BatchOutcome.exn msg →
        rs[k]? = some (Response.mkBatchErr rid (k + 1) msg
          (decide ((k + 1) * B < imgs.length))
          ⟨min ((k + 1) * B) imgs.length, imgs.length⟩))
    ∧ rs.countP (fun r => decide (r.done = some true)) = 1 := by
  have hlen := batchLoop_length gen imgs B rid hB imgs.length 0 (by omega)
  simp only [Nat.sub_zero] at hlen
  refine ⟨batchLoop gen imgs B rid 0 ++ [Response.mkDone rid],
    handle_pos gen imgs B rid hB hN, ?_, ?_, ?_⟩
  · rw [List.length_append, hlen]
    rfl
  · intro k msg hk hgen
    have hcond : k * B < imgs.length := (mul_lt_iff_lt_ceil B k imgs.length hB).mpr hk
    rw [List.getElem?_append_left (by rw [hlen]; exact hk)]
    rw [batchLoop_getElem? gen imgs B rid hB k 0]
    simp only [Nat.zero_add]
    rw [if_pos hcond]
    have hbr : batchResponse gen imgs B rid (k * B) =
        Response.mkBatchErr rid (k * B / B + 1) msg
          (decide (k * B + B < imgs.length))
          ⟨k * B + ((imgs.drop (k * B)).take B).length, imgs.length⟩ := by
      simp [batchResponse, hgen]
    rw [hbr, Nat.mul_div_cancel k hB,
      show decide (k * B + B < imgs.length) = decide ((k + 1) * B < imgs.length) from by
        rw [show (k + 1) * B = k * B + B from by ring],
      show k * B + ((imgs.drop (k * B)).take B).length = min ((k + 1) * B) imgs.length from by
        rw [List.length_take, List.length_drop,
          show (k + 1) * B = k * B + B from by ring]
        omega]
  · rw [List.countP_append]
    have hz : (batchLoop gen imgs B rid 0).countP
        (fun r => decide (r.done = some true)) = 0 := by
      rw [List.countP_eq_zero]
      intro r hr
      have hd := batchLoop_done_none gen imgs B rid imgs.length 0 (by omega) r hr
      simp [hd]
    rw [hz]
    rfl

/-- Witness for C2: five frames in batches of two with every batch
raising. -/
theorem c2_batch_error_isolation_witness :
    0 < 2 ∧ wImgs5 ≠ []
    ∧ (∃ rs, handle_describe_images genBoom wImgs5 ((2 : Nat) : Int) 0 = Except.ok rs
      ∧ rs.length = (wImgs5.length + 2 - 1) / 2 + 1
      ∧ (∀ k msg, k < (wImgs5.length + 2 - 1) / 2 →
          genBoom ((wImgs5.drop (k * 2)).take 2) = BatchOutcome.exn msg →
          rs[k]? = some (Response.mkBatchErr 0 (k + 1) msg
            (decide ((k + 1) * 2 < wImgs5.length))
            ⟨min ((k + 1) * 2) wImgs5.length, wImgs5.length⟩))
      ∧ rs.countP (fun r => decide (r.done = some true)) = 1) :=
  ⟨by decide, by decide, c2_batch_error_isolation genBoom wImgs5 2 0 (by decide) (by decide)⟩

set_option maxRecDepth 400000 in
/-- Claim C5 counterexample: a three-frame request with no explicit index
fields, batch size two and an oracle generating empty text. The third
frame sits at position two of the request's image list, but its record —
the sole result of the second batch — carries index zero, the default
being the position within the batch rather than within the request. -/
theorem c5_index_counterexample :
    handle_describe_images (genText "") wImgs3 2 1 = Except.ok
      [Response.mkBatchOk 1 1
        [⟨0, 0, "img", "Failed to parse Frame 1", "unknown", [], [], some ""⟩,
         ⟨1, 1, "img", "Failed to parse Frame 2", "unknown", [], [], some ""⟩]
        ⟨0, 0⟩ true ⟨2, 3⟩,
       Response.mkBatchOk 1 2
        [⟨0, 2, "img", "Failed to parse Frame 1", "unknown", [], [], some ""⟩]
        ⟨0, 0⟩ false ⟨3, 3⟩,
       Response.mkDone 1]
    ∧ (0 : Int) ≠ 2 := by
  refine ⟨?_, by decide⟩
  refine Eq.trans (handle_pos (genText "") wImgs3 2 1 (by decide) (by decide)) ?_
  rw [batchLoop_step _ _ _ _ 0 (by decide), batchLoop_step _ _ _ _ 2 (by decide),
    batchLoop_stop _ _ _ _ 4 (by decide)]
  congr 1

/-- Claim C5, amended: in every batch, a record's index equals the source
frame's explicit index field when one is supplied, and otherwise defaults
to the frame's zero-based position within its batch — which coincides
with the position in the request's image list only for the first batch. -/
theorem c5_index_amended (gen : List Frame → BatchOutcome) (imgs : List Frame)
    (B : Nat) (rid : Int) (k j : Nat) (t : String) (st : GenStats)
    (hB : 0 < B) (hj : j < B) (hk : k * B + j < imgs.length)
    (hgen : gen ((imgs.drop (k * B)).take B) = BatchOutcome.ok t st) :
    ∃ r results fr,
      (batchLoop gen imgs B rid 0)[k]? = some r
      ∧ r.results = some results
      ∧ results[j]? = some fr
      ∧ fr.index = (imgs[k * B + j]).index.getD (j : Int) := by
  have hcond : k * B < imgs.length := by omega
  have hget : (batchLoop gen imgs B rid 0)[k]? =
      some (batchResponse gen imgs B rid (k * B)) := by
    rw [batchLoop_getElem? gen imgs B rid hB k 0]
    simp only [Nat.zero_add]
    rw [if_pos hcond]
  have hbr : (batchResponse gen imgs B rid (k * B)).results =
      some (parse_interleaved_output t.data ((imgs.drop (k * B)).take B)) := by
    simp [batchResponse, hgen, Response.mkBatchOk]
  have hjlt : j < ((imgs.drop (k * B)).take B).length := by
    rw [List.length_take, List.length_drop]
    omega
  have hslice : ((imgs.drop (k * B)).take B)[j] = imgs[k * B + j] := by
    have h1 : ((imgs.drop (k * B)).take B)[j]? = imgs[k * B + j]? := by
      rw [List.getElem?_take, if_pos hj, List.getElem?_drop]
    rw [List.getElem?_eq_getElem hjlt, List.getElem?_eq_getElem hk] at h1
    exact Option.some.inj h1
  refine ⟨batchResponse gen imgs B rid (k * B),
    parse_interleaved_output t.data ((imgs.drop (k * B)).take B),
    parseFrameAt t.data (j + 1) (((imgs.drop (k * B)).take B)[j]),
    hget, hbr, ?_, ?_⟩
  · rw [parse_interleaved_getElem?, List.getElem?_eq_getElem hjlt]
    rfl
  · rw [parseFrameAt_index, hslice]
    rfl

/-- Witness for C5's amended claim: second batch of a five-frame request,
frame at request position two, record index zero. -/
theorem c5_index_amended_witness :
    0 < 2 ∧ 0 < 2 ∧ 1 * 2 + 0 < wImgs5.length
    ∧ genText "" ((wImgs5.drop (1 * 2)).take 2) = BatchOutcome.ok "" ⟨0, 0⟩
    ∧ (∃ r results fr,
        (batchLoop (genText "") wImgs5 2 0 0)[1]? = some r
        ∧ r.results = some results
        ∧ results[0]? = some fr
        ∧ fr.index = (wImgs5[1 * 2 + 0]).index.getD ((0 : Nat) : Int)) :=
  ⟨by decide, by decide, by decide, rfl,
    c5_index_amended (genText "") wImgs5 2 0 1 0 "" ⟨0, 0⟩
      (by decide) (by decide) (by decide) rfl⟩

set_option maxRecDepth 400000 in
/-- Claim C4 counterexample: a one-frame request whose generated text is
in the single-frame shape (the four fields with no Frame label). The
handler's response carries the placeholder record — the multi-frame
parser found no Frame 1 label — while the single-frame parser
parse_vlm_response extracts description a and activity b from the same
text; so a one-frame batch is not parsed by the single-frame variant. -/
theorem c4_single_frame_counterexample :
    handle_describe_images (genText wTextBare) [wFrame 0] 1 7 =
      Except.ok [Response.mkBatchOk 7 1
        [⟨0, 0, "img", "Failed to parse Frame 1", "unknown", [], [], some wTextBare⟩]
        ⟨0, 0⟩ false ⟨1, 1⟩,
        Response.mkDone 7]
    ∧ (parse_vlm_response wTextBare.data).description = "a"
    ∧ (parse_vlm_response wTextBare.data).activity = "b"
    ∧ "Failed to parse Frame 1" ≠ "a" := by
  refine ⟨?_, by decide, by decide, by decide⟩
  refine Eq.trans (handle_pos (genText wTextBare) [wFrame 0] 1 7 (by decide) (by decide)) ?_
  rw [batchLoop_step _ _ _ _ 0 (by decide), batchLoop_stop _ _ _ _ 1 (by decide)]
  congr 1

set_option maxRecDepth 400000 in
/-- Claim C4, amended: a batch expecting exactly one frame is still parsed
by the multi-frame parser parse_interleaved_output — the single-frame
variant parse_vlm_response is defined but not invoked by the batch
processor — and the two parsers differ observably on text lacking the
Frame 1 label. -/
theorem c4_single_frame_uses_interleaved (gen : List Frame → BatchOutcome)
    (f : Frame) (rid : Int) (t : String) (st : GenStats)
    (hgen : gen [f] = BatchOutcome.ok t st) :
    handle_describe_images gen [f] 1 rid =
      Except.ok [Response.mkBatchOk rid 1 (parse_interleaved_output t.data [f]) st
        false ⟨1, 1⟩, Response.mkDone rid]
    ∧ (parse_interleaved_output wTextBare.data [wFrame 0]).map FrameResult.description =
        ["Failed to parse Frame 1"]
    ∧ (parse_vlm_response wTextBare.data).description = "a" := by
  refine ⟨?_, by decide, by decide⟩
  refine Eq.trans (handle_pos gen [f] 1 rid (by decide) (List.cons_ne_nil f [])) ?_
  rw [batchLoop_step _ _ _ _ 0 ⟨by decide, by simp⟩, batchLoop_stop _ _ _ _ 1 (by simp)]
  simp [batchResponse, hgen, Response.mkBatchOk]

set_option maxRecDepth 400000 in
/-- Witness for C4's amended claim at a concrete one-frame request. -/
theorem c4_single_frame_uses_interleaved_witness :
    genText "x" [wFrame 0] = BatchOutcome.ok "x" ⟨0, 0⟩
    ∧ (handle_describe_images (genText "x") [wFrame 0] 1 1 =
        Except.ok [Response.mkBatchOk 1 1 (parse_interleaved_output "x".data [wFrame 0]) ⟨0, 0⟩
          false ⟨1, 1⟩, Response.mkDone 1]
      ∧ (parse_interleaved_output wTextBare.data [wFrame 0]).map FrameResult.description =
          ["Failed to parse Frame 1"]
      ∧ (parse_vlm_response wTextBare.data).description = "a") :=
  ⟨rfl, c4_single_frame_uses_interleaved (genText "x") (wFrame 0) 1 "x" ⟨0, 0⟩ rfl⟩

end MlxBridge

